import Mathlib

/- Verification development for the two pycro-manager application notebooks:
   the stage-scan OPM acquisition notebook (scan geometry, acquisition-event
   list, Tiger-controller busy-wait polling) and the napari PSF-viewer
   notebook (producer/consumer queue, z-slice image buffer, start/stop GUI
   state).  All numeric quantities the notebooks handle as floats are
   embedded as exact rationals; numpy rounding primitives are embedded with
   their documented round-half-to-even semantics. -/

namespace OPM

/-- `np.rint`: round a rational to the nearest integer, ties to even. -/
def rint (q : ℚ) : ℤ :=
  if q - (⌊q⌋ : ℚ) < 1/2 then ⌊q⌋
  else if 1/2 < q - (⌊q⌋ : ℚ) then ⌊q⌋ + 1
  else if ⌊q⌋ % 2 = 0 then ⌊q⌋ else ⌊q⌋ + 1

/-- `np.round(x, 2)`: round to two decimal places (ties to even). -/
def round2 (q : ℚ) : ℚ := (rint (q * 100) : ℚ) / 100

/-- User-supplied acquisition parameters of the OPM notebook
    (cells "Select laser channels and powers", "Camera parameters",
    "Stage scan parameters"). `ROI` is `[1024, 0, 256, 1600]` in the
    notebook; `channel_states` is the five laser on/off states. -/
structure Geometry where
  scan_axis_step_um : ℚ
  scan_axis_start_um : ℚ
  scan_axis_end_um : ℚ
  tile_axis_start_um : ℚ
  tile_axis_end_um : ℚ
  height_axis_start_um : ℚ
  height_axis_end_um : ℚ
  ROI : List ℤ
  pixel_size_um : ℚ
  channel_states : List ℕ

/-- `scan_axis_step_mm = scan_axis_step_um / 1000.` -/
def scan_axis_step_mm (g : Geometry) : ℚ := g.scan_axis_step_um / 1000

/-- `scan_axis_range_um = np.abs(scan_axis_end_um-scan_axis_start_um)` -/
def scan_axis_range_um (g : Geometry) : ℚ := |g.scan_axis_end_um - g.scan_axis_start_um|

/-- `scan_axis_range_mm = scan_axis_range_um / 1000` -/
def scan_axis_range_mm (g : Geometry) : ℚ := scan_axis_range_um g / 1000

/-- `scan_axis_positions = np.rint(scan_axis_range_mm / scan_axis_step_mm).astype(int)`.
    Note: unlike the tile and height axes, the notebook applies no
    clamp-to-one to this count. -/
def scan_axis_positions (g : Geometry) : ℤ :=
  rint (scan_axis_range_mm g / scan_axis_step_mm g)

/-- `tile_axis_overlap=0.2` -/
def tile_axis_overlap : ℚ := 2/10

/-- `tile_axis_range_um = np.abs(tile_axis_end_um - tile_axis_start_um)` -/
def tile_axis_range_um (g : Geometry) : ℚ := |g.tile_axis_end_um - g.tile_axis_start_um|

/-- `tile_axis_range_mm = tile_axis_range_um / 1000` -/
def tile_axis_range_mm (g : Geometry) : ℚ := tile_axis_range_um g / 1000

/-- `tile_axis_ROI = ROI[3]*pixel_size_um` -/
def tile_axis_ROI (g : Geometry) : ℚ := (g.ROI.getD 3 0 : ℚ) * g.pixel_size_um

/-- `tile_axis_step_um = np.round((tile_axis_ROI) * (1-tile_axis_overlap),2)` -/
def tile_axis_step_um (g : Geometry) : ℚ := round2 (tile_axis_ROI g * (1 - tile_axis_overlap))

/-- `tile_axis_step_mm = tile_axis_step_um / 1000` -/
def tile_axis_step_mm (g : Geometry) : ℚ := tile_axis_step_um g / 1000

/-- `tile_axis_positions = np.rint(tile_axis_range_mm / tile_axis_step_mm).astype(int)`
    followed by `if tile_axis_positions == 0: tile_axis_positions=1`. -/
def tile_axis_positions (g : Geometry) : ℤ :=
  if rint (tile_axis_range_mm g / tile_axis_step_mm g) = 0 then 1
  else rint (tile_axis_range_mm g / tile_axis_step_mm g)

/-- `height_axis_overlap=0.2` -/
def height_axis_overlap : ℚ := 2/10

/-- `height_axis_range_um = np.abs(height_axis_end_um-height_axis_start_um)` -/
def height_axis_range_um (g : Geometry) : ℚ := |g.height_axis_end_um - g.height_axis_start_um|

/-- `height_axis_range_mm = height_axis_range_um / 1000` -/
def height_axis_range_mm (g : Geometry) : ℚ := height_axis_range_um g / 1000

/-- `height_axis_ROI = ROI[2]*pixel_size_um*np.sin(30*(np.pi/180.))`;
    `sin 30° = 1/2` exactly. -/
def height_axis_ROI (g : Geometry) : ℚ := (g.ROI.getD 2 0 : ℚ) * g.pixel_size_um * (1/2)

/-- `height_axis_step_um = np.round((height_axis_ROI)*(1-height_axis_overlap),2)` -/
def height_axis_step_um (g : Geometry) : ℚ :=
  round2 (height_axis_ROI g * (1 - height_axis_overlap))

/-- `height_axis_step_mm = height_axis_step_um / 1000` -/
def height_axis_step_mm (g : Geometry) : ℚ := height_axis_step_um g / 1000

/-- `height_axis_positions = np.rint(height_axis_range_mm / height_axis_step_mm).astype(int)`
    followed by `if height_axis_positions==0: height_axis_positions=1`. -/
def height_axis_positions (g : Geometry) : ℤ :=
  if rint (height_axis_range_mm g / height_axis_step_mm g) = 0 then 1
  else rint (height_axis_range_mm g / height_axis_step_mm g)

/-- The parameter values entered in the notebook as shipped:
    0.2 µm scan step, scan 0–5000 µm, tile 0–5000 µm, height 0–30 µm,
    ROI `[1024, 0, 256, 1600]`, 0.115 µm pixels, only the 561 nm laser on. -/
def defaultGeometry : Geometry :=
  { scan_axis_step_um := 2/10
    scan_axis_start_um := 0
    scan_axis_end_um := 5000
    tile_axis_start_um := 0
    tile_axis_end_um := 5000
    height_axis_start_um := 0
    height_axis_end_um := 30
    ROI := [1024, 0, 256, 1600]
    pixel_size_um := 115/1000
    channel_states := [0, 0, 1, 0, 0] }

/-- The default geometry with a zero-length scan range
    (`scan_axis_end_um = scan_axis_start_um = 0`). -/
def zeroScanGeometry : Geometry :=
  { defaultGeometry with scan_axis_end_um := 0 }

/-- Evaluation rule for `rint` when the fractional part is below one half. -/
theorem rint_eq_self (q : ℚ) (n : ℤ) (h1 : (n : ℚ) ≤ q) (h2 : q < (n : ℚ) + 1/2) :
    rint q = n := by
  have hfl : ⌊q⌋ = n := by
    rw [Int.floor_eq_iff]
    constructor
    · exact h1
    · linarith
  rw [rint, hfl, if_pos]
  rw [hfl] at *
  linarith

/-- Evaluation rule for `rint` when the fractional part is above one half. -/
theorem rint_eq_add_one (q : ℚ) (n : ℤ) (h1 : (n : ℚ) + 1/2 < q) (h2 : q < (n : ℚ) + 1) :
    rint q = n + 1 := by
  have hfl : ⌊q⌋ = n := by
    rw [Int.floor_eq_iff]
    constructor
    · linarith
    · linarith
  rw [rint, hfl, if_neg (by linarith), if_pos (by linarith)]

/-- `rint` of a nonnegative rational is nonnegative. -/
theorem rint_nonneg {q : ℚ} (h : 0 ≤ q) : 0 ≤ rint q := by
  have hf : (0 : ℤ) ≤ ⌊q⌋ := Int.floor_nonneg.mpr h
  rw [rint]
  split
  · exact hf
  · split
    · omega
    · split <;> omega

/-- Concrete evaluation: the tile step for the shipped parameters is 147.2 µm. -/
theorem tile_step_default_eval : tile_axis_step_um defaultGeometry = 736/5 := by
  rw [tile_axis_step_um, round2]
  have h : tile_axis_ROI defaultGeometry * (1 - tile_axis_overlap) * 100 = 14720 := by
    norm_num [tile_axis_ROI, tile_axis_overlap, defaultGeometry]
  rw [h, rint_eq_self 14720 14720 (by norm_num) (by norm_num)]
  norm_num

/-- Concrete evaluation: the height step for the shipped parameters is 11.78 µm. -/
theorem height_step_default_eval : height_axis_step_um defaultGeometry = 589/50 := by
  rw [height_axis_step_um, round2]
  have h : height_axis_ROI defaultGeometry * (1 - height_axis_overlap) * 100 = 5888/5 := by
    norm_num [height_axis_ROI, height_axis_overlap, defaultGeometry]
  rw [h, rint_eq_add_one (5888/5) 1177 (by norm_num) (by norm_num)]
  norm_num

/-- The `if (c==0) ... elif (c==4)` chain in the events cell: the laser
    configuration name chosen for channel index `c` (the notebook's
    `channel_states` has length 5, so `c ≤ 4` in every reachable call). -/
def configName : ℕ → String
  | 0 => "405nm"
  | 1 => "488nm"
  | 2 => "561nm"
  | 3 => "637nm"
  | 4 => "730nm"
  | _ => ""

/-- One acquisition-event dictionary `evt` of the events cell:
    `{ 'axes': {'x': x, 'y': y, 'z': z}, 'x': ..., 'y': ..., 'z': ...,
       'channel': {'group': 'Coherent-State', 'config': ...} }`.
    The `axes` sub-dictionary is kept as an association list so that which
    logical indices the record names is part of the model. -/
structure AcqEvent where
  axes : List (String × ℕ)
  x : ℚ
  y : ℚ
  z : ℚ
  channel_group : String
  channel_config : String

/-- `tile_position_um = tile_axis_start_um+(tile_axis_step_um*y)` -/
def tile_position_um (g : Geometry) (y : ℕ) : ℚ :=
  g.tile_axis_start_um + tile_axis_step_um g * y

/-- `height_position_um = height_axis_start_um+(height_axis_step_um*z)` -/
def height_position_um (g : Geometry) (z : ℕ) : ℚ :=
  g.height_axis_start_um + height_axis_step_um g * z

/-- The event appended for loop indices `(y, z, c, x)`. -/
def mkEvt (g : Geometry) (y z c x : ℕ) : AcqEvent :=
  { axes := [("x", x), ("y", y), ("z", z)]
    x := g.scan_axis_start_um
    y := tile_position_um g y
    z := height_position_um g z
    channel_group := "Coherent-State"
    channel_config := configName c }

/-- The events cell: nested loops `for y / for z / for c / for x`, appending
    an event exactly when `channel_states[c]==1`. -/
def events (g : Geometry) : List AcqEvent :=
  (List.range (tile_axis_positions g).toNat).flatMap fun y =>
    (List.range (height_axis_positions g).toNat).flatMap fun z =>
      (List.range g.channel_states.length).flatMap fun c =>
        (List.range (scan_axis_positions g).toNat).flatMap fun x =>
          if g.channel_states.getD c 0 = 1 then [mkEvt g y z c x] else []

/-- Modelled from the spec's words: the logical index quadruples
    `(tile, height, channel, scan-step)` in the fixed nested loop order with
    tile outermost, then height, then channel, then scan step innermost,
    keeping only channels whose state is 1. -/
def specEventIndexOrder (g : Geometry) : List (ℕ × ℕ × ℕ × ℕ) :=
  (List.range (tile_axis_positions g).toNat).flatMap fun y =>
    (List.range (height_axis_positions g).toNat).flatMap fun z =>
      (List.range g.channel_states.length).flatMap fun c =>
        (List.range (scan_axis_positions g).toNat).flatMap fun x =>
          if g.channel_states.getD c 0 = 1 then [(y, z, c, x)] else []

/-- Length of a range-flatMap whose branch is a constant-condition singleton. -/
theorem length_flatMap_ite {α : Type} (n : ℕ) (p : Prop) [Decidable p] (f : ℕ → α) :
    ((List.range n).flatMap fun x => if p then [f x] else []).length =
      if p then n else 0 := by
  by_cases hp : p <;> simp [hp, List.length_flatMap, Function.comp_def]

/-- Length of a range-flatMap with constant block length. -/
theorem length_flatMap_const_len {α : Type} (n m : ℕ) (f : ℕ → List α)
    (h : ∀ y, (f y).length = m) :
    ((List.range n).flatMap f).length = n * m := by
  rw [List.length_flatMap]
  simp only [Function.comp_def]
  have hm : (List.range n).map (fun a => (f a).length) = (List.range n).map fun _ => m :=
    List.map_congr_left fun a _ => h a
  simp [hm, mul_comm]

/-- Summing `if l[c]==1 then n else 0` over all positions of `l` counts the
    active entries. -/
theorem sum_ite_getD (l : List ℕ) (n : ℕ) :
    ((List.range l.length).map fun c => if l.getD c 0 = 1 then n else 0).sum =
      l.countP (fun s => s == 1) * n := by
  induction l with
  | nil => simp
  | cons a t ih =>
      rw [List.length_cons, List.range_succ_eq_map]
      simp only [List.map_cons, List.map_map, List.sum_cons, Function.comp_def,
        List.getD_cons_zero, List.getD_cons_succ, List.countP_cons, ih]
      by_cases ha : a = 1
      · simp [ha]
        ring
      · simp [ha]

/-- Length of the channel-level flatMap for fixed tile/height indices. -/
theorem length_events_channel_level (g : Geometry) (y z : ℕ) :
    (((List.range g.channel_states.length).flatMap fun c =>
        (List.range (scan_axis_positions g).toNat).flatMap fun x =>
          if g.channel_states.getD c 0 = 1 then [mkEvt g y z c x] else [])).length =
      g.channel_states.countP (fun s => s == 1) * (scan_axis_positions g).toNat := by
  rw [List.length_flatMap]
  simp only [Function.comp_def]
  have h : ((List.range g.channel_states.length).map fun c =>
      ((List.range (scan_axis_positions g).toNat).flatMap fun x =>
        if g.channel_states.getD c 0 = 1 then [mkEvt g y z c x] else []).length) =
      (List.range g.channel_states.length).map fun c =>
        if g.channel_states.getD c 0 = 1 then (scan_axis_positions g).toNat else 0 :=
    List.map_congr_left fun c _ => length_flatMap_ite _ _ _
  rw [h, sum_ite_getD]

/-- Membership in `if p then [b] else []`. -/
theorem mem_singleton_ite {α : Type} {a b : α} {p : Prop} [Decidable p] :
    a ∈ (if p then [b] else ([] : List α)) ↔ p ∧ a = b := by
  by_cases hp : p <;> simp [hp]

/-- Characterization of the events produced by the events cell: exactly the
    `mkEvt g y z c x` for in-range loop indices with channel `c` active. -/
theorem mem_events_iff (g : Geometry) (e : AcqEvent) :
    e ∈ events g ↔ ∃ y z c x,
      y < (tile_axis_positions g).toNat ∧ z < (height_axis_positions g).toNat ∧
      c < g.channel_states.length ∧ x < (scan_axis_positions g).toNat ∧
      g.channel_states.getD c 0 = 1 ∧ e = mkEvt g y z c x := by
  simp only [events, List.mem_flatMap, List.mem_range, mem_singleton_ite]
  constructor
  · rintro ⟨y, hy, z, hz, c, hc, x, hx, hs, he⟩
    exact ⟨y, z, c, x, hy, hz, hc, hx, hs, he⟩
  · rintro ⟨y, z, c, x, hy, hz, hc, hx, hs, he⟩
    exact ⟨y, hy, z, hz, c, hc, x, hx, hs, he⟩

/-- C1 counterexample: with the notebook's shipped parameters but a
    zero-length scan range, the scan-axis position count is 0, not 1 — the
    scan axis is not clamped to a minimum of one. -/
theorem scan_count_not_clamped_cex :
    scan_axis_positions zeroScanGeometry = 0 ∧
      ¬ (1 ≤ scan_axis_positions zeroScanGeometry) := by
  have h : scan_axis_range_mm zeroScanGeometry / scan_axis_step_mm zeroScanGeometry = 0 := by
    norm_num [scan_axis_range_mm, scan_axis_range_um, scan_axis_step_mm, zeroScanGeometry,
      defaultGeometry]
  have h0 : scan_axis_positions zeroScanGeometry = 0 := by
    rw [scan_axis_positions, h]
    exact rint_eq_self 0 0 (by norm_num) (by norm_num)
  exact ⟨h0, by omega⟩

/-- C1 (amended): for positive step sizes, the tile-axis and height-axis
    position counts are non-negative and clamped to a minimum of one (a
    zero-length range on those axes yields exactly one position), while the
    scan-axis count is non-negative but not clamped: a zero-length scan
    range yields zero positions. -/
theorem position_counts_amended (g : Geometry)
    (ht : 0 < tile_axis_step_um g) (hh : 0 < height_axis_step_um g)
    (hs : 0 < g.scan_axis_step_um) :
    0 ≤ scan_axis_positions g ∧ 1 ≤ tile_axis_positions g ∧ 1 ≤ height_axis_positions g ∧
    (scan_axis_range_um g = 0 → scan_axis_positions g = 0) ∧
    (tile_axis_range_um g = 0 → tile_axis_positions g = 1) ∧
    (height_axis_range_um g = 0 → height_axis_positions g = 1) := by
  have hr0 : rint (0 : ℚ) = 0 := rint_eq_self 0 0 (by norm_num) (by norm_num)
  have hsr : 0 ≤ scan_axis_range_mm g := by
    rw [scan_axis_range_mm, scan_axis_range_um]
    positivity
  have hss : 0 < scan_axis_step_mm g := by
    rw [scan_axis_step_mm]
    exact div_pos hs (by norm_num)
  have htr : 0 ≤ tile_axis_range_mm g := by
    rw [tile_axis_range_mm, tile_axis_range_um]
    positivity
  have hts : 0 < tile_axis_step_mm g := by
    rw [tile_axis_step_mm]
    exact div_pos ht (by norm_num)
  have hhr : 0 ≤ height_axis_range_mm g := by
    rw [height_axis_range_mm, height_axis_range_um]
    positivity
  have hhs : 0 < height_axis_step_mm g := by
    rw [height_axis_step_mm]
    exact div_pos hh (by norm_num)
  refine ⟨rint_nonneg (div_nonneg hsr hss.le), ?_, ?_, ?_, ?_, ?_⟩
  · rw [tile_axis_positions]
    split
    · norm_num
    · have := rint_nonneg (div_nonneg htr hts.le)
      omega
  · rw [height_axis_positions]
    split
    · norm_num
    · have := rint_nonneg (div_nonneg hhr hhs.le)
      omega
  · intro h
    have hq : scan_axis_range_mm g / scan_axis_step_mm g = 0 := by
      rw [scan_axis_range_mm, h]
      simp
    rw [scan_axis_positions, hq, hr0]
  · intro h
    have hq : tile_axis_range_mm g / tile_axis_step_mm g = 0 := by
      rw [tile_axis_range_mm, h]
      simp
    rw [tile_axis_positions, hq, hr0]
    simp
  · intro h
    have hq : height_axis_range_mm g / height_axis_step_mm g = 0 := by
      rw [height_axis_range_mm, h]
      simp
    rw [height_axis_positions, hq, hr0]
    simp

/-- Witness for the amended C1 at the notebook's shipped parameters. -/
theorem position_counts_amended_witness :
    (0 < tile_axis_step_um defaultGeometry ∧ 0 < height_axis_step_um defaultGeometry ∧
      0 < defaultGeometry.scan_axis_step_um) ∧
    (0 ≤ scan_axis_positions defaultGeometry ∧ 1 ≤ tile_axis_positions defaultGeometry ∧
      1 ≤ height_axis_positions defaultGeometry ∧
      (scan_axis_range_um defaultGeometry = 0 → scan_axis_positions defaultGeometry = 0) ∧
      (tile_axis_range_um defaultGeometry = 0 → tile_axis_positions defaultGeometry = 1) ∧
      (height_axis_range_um defaultGeometry = 0 → height_axis_positions defaultGeometry = 1)) := by
  have h1 : 0 < tile_axis_step_um defaultGeometry := by
    rw [tile_step_default_eval]
    norm_num
  have h2 : 0 < height_axis_step_um defaultGeometry := by
    rw [height_step_default_eval]
    norm_num
  have h3 : 0 < defaultGeometry.scan_axis_step_um := by norm_num [defaultGeometry]
  exact ⟨⟨h1, h2, h3⟩, position_counts_amended defaultGeometry h1 h2 h3⟩

/-- C2: the scan-step count computation (round-to-nearest of range over step
    after µm→mm conversion) yields 25000 positions for a 5000 µm scan range
    with a 0.2 µm step. -/
theorem scan_positions_5000um_range (g : Geometry)
    (hstep : g.scan_axis_step_um = 2/10) (hrange : scan_axis_range_um g = 5000) :
    scan_axis_positions g = 25000 := by
  have h : scan_axis_range_mm g / scan_axis_step_mm g = 25000 := by
    rw [scan_axis_range_mm, hrange, scan_axis_step_mm, hstep]
    norm_num
  rw [scan_axis_positions, h]
  exact rint_eq_self 25000 25000 (by norm_num) (by norm_num)

/-- Witness for C2 at the notebook's shipped parameters. -/
theorem scan_positions_5000um_range_witness :
    defaultGeometry.scan_axis_step_um = 2/10 ∧ scan_axis_range_um defaultGeometry = 5000 ∧
      scan_axis_positions defaultGeometry = 25000 := by
  have h1 : defaultGeometry.scan_axis_step_um = 2/10 := rfl
  have h2 : scan_axis_range_um defaultGeometry = 5000 := by
    rw [scan_axis_range_um]
    norm_num [defaultGeometry]
  exact ⟨h1, h2, scan_positions_5000um_range defaultGeometry h1 h2⟩

/-- The default geometry shrunk to two scan positions and one tile/height
    position, for concrete evaluation of the event list. -/
def smallGeometry : Geometry :=
  { defaultGeometry with
    scan_axis_end_um := 2/5
    tile_axis_end_um := 0
    height_axis_end_um := 0 }

/-- Concrete evaluation: two scan positions for the small geometry. -/
theorem scan_positions_small_eval : scan_axis_positions smallGeometry = 2 := by
  have h : scan_axis_range_mm smallGeometry / scan_axis_step_mm smallGeometry = 2 := by
    norm_num [scan_axis_range_mm, scan_axis_range_um, scan_axis_step_mm, smallGeometry,
      defaultGeometry, abs_of_nonneg]
  rw [scan_axis_positions, h]
  exact rint_eq_self 2 2 (by norm_num) (by norm_num)

/-- Concrete evaluation: one tile position for the small geometry. -/
theorem tile_positions_small_eval : tile_axis_positions smallGeometry = 1 := by
  have h : tile_axis_range_mm smallGeometry / tile_axis_step_mm smallGeometry = 0 := by
    have h0 : tile_axis_range_mm smallGeometry = 0 := by
      norm_num [tile_axis_range_mm, tile_axis_range_um, smallGeometry, defaultGeometry]
    rw [h0]
    simp
  rw [tile_axis_positions, h, rint_eq_self 0 0 (by norm_num) (by norm_num)]
  simp

/-- Concrete evaluation: one height position for the small geometry. -/
theorem height_positions_small_eval : height_axis_positions smallGeometry = 1 := by
  have h : height_axis_range_mm smallGeometry / height_axis_step_mm smallGeometry = 0 := by
    have h0 : height_axis_range_mm smallGeometry = 0 := by
      norm_num [height_axis_range_mm, height_axis_range_um, smallGeometry, defaultGeometry]
    rw [h0]
    simp
  rw [height_axis_positions, h, rint_eq_self 0 0 (by norm_num) (by norm_num)]
  simp

/-- Concrete evaluation of the whole event list for the small geometry:
    only channel 2 (561 nm) is active, giving two events in scan order. -/
theorem events_small_eval :
    events smallGeometry = [mkEvt smallGeometry 0 0 2 0, mkEvt smallGeometry 0 0 2 1] := by
  simp only [events, scan_positions_small_eval, tile_positions_small_eval,
    height_positions_small_eval]
  rfl

/-- C3: the event list is built in the fixed nested loop order with tile (y)
    outermost, then height (z), then channel (c), then scan step (x)
    innermost, and its length is exactly `tile positions × height positions ×
    active channels × scan positions`. -/
theorem events_length_and_order (g : Geometry) :
    (events g).length =
      (tile_axis_positions g).toNat * (height_axis_positions g).toNat *
        g.channel_states.countP (fun s => s == 1) * (scan_axis_positions g).toNat ∧
    events g = (specEventIndexOrder g).map fun q => mkEvt g q.1 q.2.1 q.2.2.1 q.2.2.2 := by
  constructor
  · have hy : ∀ y, (((List.range (height_axis_positions g).toNat).flatMap fun z =>
        (List.range g.channel_states.length).flatMap fun c =>
          (List.range (scan_axis_positions g).toNat).flatMap fun x =>
            if g.channel_states.getD c 0 = 1 then [mkEvt g y z c x] else [])).length =
        (height_axis_positions g).toNat *
          (g.channel_states.countP (fun s => s == 1) * (scan_axis_positions g).toNat) :=
      fun y => length_flatMap_const_len _ _ _ fun z => length_events_channel_level g y z
    rw [events, length_flatMap_const_len _ _ _ hy]
    ring
  · simp only [events, specEventIndexOrder, List.map_flatMap,
      apply_ite (List.map fun q : ℕ × ℕ × ℕ × ℕ => mkEvt g q.1 q.2.1 q.2.2.1 q.2.2.2),
      List.map_cons, List.map_nil]

/-- C4 counterexample: an event record of the notebook names only the three
    logical indices `x`, `y`, `z` in its `axes` dictionary — there is no
    fourth entry carrying the logical channel index. -/
theorem event_record_axes_cex :
    (¬ ∀ e ∈ events smallGeometry, e.axes.length = 4) ∧
    (events smallGeometry).head?.map (fun e => e.axes.map Prod.fst) = some ["x", "y", "z"] := by
  constructor
  · intro h
    have hm : mkEvt smallGeometry 0 0 2 0 ∈ events smallGeometry := by
      rw [events_small_eval]
      simp
    have h4 := h _ hm
    simp [mkEvt] at h4
  · rw [events_small_eval]
    rfl

/-- C4 (amended): every event record names the logical indices of the scan
    (`x`), tile (`y`) and height (`z`) axes in its `axes` dictionary, plus
    the physical stage targets and the physical channel
    (`Coherent-State` group and per-channel laser configuration); the
    logical channel index itself is not stored in the record. -/
theorem event_record_fields (g : Geometry) (e : AcqEvent) (he : e ∈ events g) :
    ∃ y z c x,
      y < (tile_axis_positions g).toNat ∧ z < (height_axis_positions g).toNat ∧
      c < g.channel_states.length ∧ x < (scan_axis_positions g).toNat ∧
      g.channel_states.getD c 0 = 1 ∧
      e.axes = [("x", x), ("y", y), ("z", z)] ∧
      e.x = g.scan_axis_start_um ∧
      e.y = tile_position_um g y ∧
      e.z = height_position_um g z ∧
      e.channel_group = "Coherent-State" ∧
      e.channel_config = configName c := by
  obtain ⟨y, z, c, x, hy, hz, hc, hx, hs, rfl⟩ := (mem_events_iff g e).mp he
  exact ⟨y, z, c, x, hy, hz, hc, hx, hs, rfl, rfl, rfl, rfl, rfl, rfl⟩

/-- Witness for the amended C4 on a concrete event of the small geometry. -/
theorem event_record_fields_witness :
    mkEvt smallGeometry 0 0 2 0 ∈ events smallGeometry ∧
    (∃ y z c x,
      y < (tile_axis_positions smallGeometry).toNat ∧
      z < (height_axis_positions smallGeometry).toNat ∧
      c < smallGeometry.channel_states.length ∧
      x < (scan_axis_positions smallGeometry).toNat ∧
      smallGeometry.channel_states.getD c 0 = 1 ∧
      (mkEvt smallGeometry 0 0 2 0).axes = [("x", x), ("y", y), ("z", z)] ∧
      (mkEvt smallGeometry 0 0 2 0).x = smallGeometry.scan_axis_start_um ∧
      (mkEvt smallGeometry 0 0 2 0).y = tile_position_um smallGeometry y ∧
      (mkEvt smallGeometry 0 0 2 0).z = height_position_um smallGeometry z ∧
      (mkEvt smallGeometry 0 0 2 0).channel_group = "Coherent-State" ∧
      (mkEvt smallGeometry 0 0 2 0).channel_config = configName c) := by
  have hm : mkEvt smallGeometry 0 0 2 0 ∈ events smallGeometry := by
    rw [events_small_eval]
    simp
  exact ⟨hm, event_record_fields smallGeometry _ hm⟩

/-- C10: every event carries the same physical scan-axis stage position,
    namely `scan_axis_start_um`, whatever its logical scan index. -/
theorem event_x_constant (g : Geometry) (e : AcqEvent) (he : e ∈ events g) :
    e.x = g.scan_axis_start_um := by
  obtain ⟨y, z, c, x, _, _, _, _, _, rfl⟩ := (mem_events_iff g e).mp he
  rfl

/-- Witness for C10 on a concrete event (logical scan index 1) of the small
    geometry. -/
theorem event_x_constant_witness :
    mkEvt smallGeometry 0 0 2 1 ∈ events smallGeometry ∧
    (mkEvt smallGeometry 0 0 2 1).x = smallGeometry.scan_axis_start_um := by
  have hm : mkEvt smallGeometry 0 0 2 1 ∈ events smallGeometry := by
    rw [events_small_eval]
    simp
  exact ⟨hm, event_x_constant smallGeometry _ hm⟩

/-- A device interaction of the `post_hardware_hook` busy-wait loop. -/
inductive TigerAct where
  | setProp : String → String → String → TigerAct
  | getProp : String → String → TigerAct
  | sleep : ℚ → TigerAct
deriving DecidableEq

/-- The body of one polling iteration of `post_hardware_hook`:
    `core.set_property('TigerCommHub','SerialCommand','STATUS')`, then
    `ready = core.get_property('TigerCommHub','SerialResponse')`, then
    `sleep(.500)` — always exactly half a second, with no backoff. -/
def pollIterActs : List TigerAct :=
  [TigerAct.setProp "TigerCommHub" "SerialCommand" "STATUS",
   TigerAct.getProp "TigerCommHub" "SerialResponse",
   TigerAct.sleep (1/2)]

/-- Fuel-indexed run of the `while(ready!='N')` loop, starting at the `k`-th
    poll of the device-response stream `resp`.  Returns the total number of
    iterations when the loop exits within `fuel` iterations (the loop body
    itself has no timeout or failure path; `none` only means the fuel bound
    was hit while the device kept reporting busy). -/
def pollRun (resp : ℕ → String) : ℕ → ℕ → Option ℕ
  | 0, _ => none
  | fuel + 1, k => if resp k = "N" then some (k + 1) else pollRun resp fuel (k + 1)

/-- Sequence of device interactions performed by the first `fuel` iterations
    of the `while(ready!='N')` loop starting at poll `k`. -/
def pollTrace (resp : ℕ → String) : ℕ → ℕ → List TigerAct
  | 0, _ => []
  | fuel + 1, k =>
      pollIterActs ++ (if resp k = "N" then [] else pollTrace resp fuel (k + 1))

/-- If the device never reports `'N'`, the loop never exits, whatever the
    fuel. -/
theorem pollRun_none_of_never (resp : ℕ → String) :
    ∀ fuel k, (∀ j, resp j ≠ "N") → pollRun resp fuel k = none := by
  intro fuel
  induction fuel with
  | zero => intro k _; rfl
  | succ n ih =>
      intro k h
      rw [pollRun, if_neg (h k)]
      exact ih (k + 1) h

/-- If poll `k` is the first at or after `k0` answering `'N'`, the loop run
    from `k0` exits after iteration `k` and its trace is one identical
    iteration block per poll. -/
theorem pollRun_term (resp : ℕ → String) :
    ∀ fuel k0 k, k0 ≤ k → resp k = "N" → (∀ j, k0 ≤ j → j < k → resp j ≠ "N") →
      k - k0 < fuel →
      pollRun resp fuel k0 = some (k + 1) ∧
      pollTrace resp fuel k0 = (List.replicate (k + 1 - k0) pollIterActs).flatten := by
  intro fuel
  induction fuel with
  | zero => intro k0 k _ _ _ hlt; omega
  | succ n ih =>
      intro k0 k hle hN hmin hfuel
      by_cases h0 : resp k0 = "N"
      · have hk : k = k0 := by
          by_contra hne
          exact hmin k0 le_rfl (lt_of_le_of_ne hle (Ne.symm hne)) h0
        subst hk
        refine ⟨by rw [pollRun, if_pos h0], ?_⟩
        rw [pollTrace, if_pos h0]
        simp
      · have hk0 : k0 < k := lt_of_le_of_ne hle fun he => h0 (he ▸ hN)
        obtain ⟨h1, h2⟩ := ih (k0 + 1) k hk0 hN
          (fun j hj hjk => hmin j (Nat.le_of_succ_le hj) hjk) (by omega)
        refine ⟨by rw [pollRun, if_neg h0]; exact h1, ?_⟩
        rw [pollTrace, if_neg h0, h2]
        have hrep : k + 1 - k0 = (k + 1 - (k0 + 1)) + 1 := by omega
        rw [hrep, List.replicate_succ, List.flatten_cons]

/-- C5: the device-ready wait of `post_hardware_hook` polls the
    `SerialResponse` status on a fixed half-second interval (every iteration
    performs the identical `STATUS`-write / response-read / `sleep(.500)`
    block, so there is no backoff and no timeout of its own), terminates
    exactly at the first `'N'` response, and if the device never reports
    `'N'` the loop never exits — there is no failure path. -/
theorem post_hardware_poll (resp : ℕ → String) (fuel : ℕ) :
    ((∀ j, resp j ≠ "N") → pollRun resp fuel 0 = none) ∧
    (∀ k, resp k = "N" → (∀ j, j < k → resp j ≠ "N") → k < fuel →
      pollRun resp fuel 0 = some (k + 1) ∧
      pollTrace resp fuel 0 = (List.replicate (k + 1) pollIterActs).flatten) := by
  constructor
  · exact fun h => pollRun_none_of_never resp fuel 0 h
  · intro k hN hmin hk
    have h := pollRun_term resp fuel 0 k (Nat.zero_le k) hN (fun j _ hj => hmin j hj)
      (by omega)
    simpa using h

/-- Witness for C5: the device reports busy once, then ready on the second
    poll; the loop performs exactly two identical iterations. -/
theorem post_hardware_poll_witness :
    (fun j => if j = 1 then "N" else "B") 1 = "N" ∧
    pollRun (fun j => if j = 1 then "N" else "B") 3 0 = some 2 ∧
    pollTrace (fun j => if j = 1 then "N" else "B") 3 0 =
      (List.replicate 2 pollIterActs).flatten := by
  have h := (post_hardware_poll (fun j => if j = 1 then "N" else "B") 3).2 1
    (by decide) (by decide) (by decide)
  exact ⟨by decide, h.1, h.2⟩

end OPM

namespace PSFViewer

/-- A frame-queue element placed by `place_data`:
    `[channels[1], z_range[3], np.ravel(image)]` — the active channel, the
    active z slice, and the flattened image data. -/
structure QElem where
  color : ℕ
  zpos : ℕ
  img : List ℚ
deriving DecidableEq

/-- The two mutable counters the producer advances: `z_range[3]` (active z
    slice) and `channels[1]` (active channel).  The fixed totals
    `z_range[2]` (number of slices) and `channels[0]` (number of channels)
    are passed separately. -/
structure Counters where
  z_active : ℕ
  ch_active : ℕ
deriving DecidableEq

/-- `place_data(image)`: enqueue `[channels[1], z_range[3], ravel(image)]`,
    then `z_range[3] = (z_range[3]+1) % z_range[2]`, and if the z counter
    wrapped to zero, `channels[1] = (channels[1]+1) % channels[0]`. -/
def place_data (nz nch : ℕ) (s : Counters) (image : List ℚ) : Counters × QElem :=
  (⟨(s.z_active + 1) % nz,
    if (s.z_active + 1) % nz = 0 then (s.ch_active + 1) % nch else s.ch_active⟩,
   ⟨s.ch_active, s.z_active, image⟩)

/-- C8: `place_data` keeps the active z-slice counter in `[0, nz)` and the
    active channel counter in `[0, nch)`; it advances z by one modulo the
    slice count, and advances the channel by one modulo the channel count
    exactly when the z counter wraps to zero. -/
theorem place_data_invariant (nz nch : ℕ) (s : Counters) (image : List ℚ)
    (hnz : 0 < nz) (hnch : 0 < nch) (hch : s.ch_active < nch) :
    (place_data nz nch s image).1.z_active < nz ∧
    (place_data nz nch s image).1.ch_active < nch ∧
    (place_data nz nch s image).1.z_active = (s.z_active + 1) % nz ∧
    ((place_data nz nch s image).1.z_active = 0 →
      (place_data nz nch s image).1.ch_active = (s.ch_active + 1) % nch) ∧
    ((place_data nz nch s image).1.z_active ≠ 0 →
      (place_data nz nch s image).1.ch_active = s.ch_active) := by
  refine ⟨Nat.mod_lt _ hnz, ?_, rfl, ?_, ?_⟩
  · by_cases h : (s.z_active + 1) % nz = 0
    · simp only [place_data, h, if_pos]
      exact Nat.mod_lt _ hnch
    · simp only [place_data, if_neg h]
      exact hch
  · intro h
    simp only [place_data] at h ⊢
    rw [if_pos h]
  · intro h
    simp only [place_data] at h ⊢
    rw [if_neg h]

/-- Witness for C8 with the notebook's totals (`z_range[2] = 200`,
    `channels[0] = 1`) from the initial counters. -/
theorem place_data_invariant_witness :
    (place_data 200 1 ⟨0, 0⟩ [0]).1.z_active < 200 ∧
    (place_data 200 1 ⟨0, 0⟩ [0]).1.ch_active < 1 ∧
    (place_data 200 1 ⟨0, 0⟩ [0]).1.z_active = (0 + 1) % 200 ∧
    ((place_data 200 1 ⟨0, 0⟩ [0]).1.z_active = 0 →
      (place_data 200 1 ⟨0, 0⟩ [0]).1.ch_active = (0 + 1) % 1) ∧
    ((place_data 200 1 ⟨0, 0⟩ [0]).1.z_active ≠ 0 →
      (place_data 200 1 ⟨0, 0⟩ [0]).1.ch_active = 0) :=
  place_data_invariant 200 1 ⟨0, 0⟩ [0] (by norm_num) (by norm_num) (by norm_num)

/-- `display_napari(pos_img)`: write the element's image into the slice of
    the fixed-size stack selected by its z position
    (`data[z_pos] = np.squeeze(image)`); the napari layer refresh and the
    `task_done()` call go to external libraries. -/
def display_napari (data : List (List ℚ)) (e : QElem) : List (List ℚ) :=
  data.set e.zpos e.img

/-- C7: a display update overwrites exactly the z slice carried by the queue
    element — the buffer keeps its size, the selected slice becomes the
    element's image, and every other slice is unchanged. -/
theorem display_napari_updates_one_slice (data : List (List ℚ)) (e : QElem)
    (hz : e.zpos < data.length) :
    (display_napari data e).length = data.length ∧
    (display_napari data e)[e.zpos]? = some e.img ∧
    ∀ j, j ≠ e.zpos → (display_napari data e)[j]? = data[j]? := by
  refine ⟨by simp [display_napari], ?_, ?_⟩
  · simp [display_napari, List.getElem?_set_self, hz]
  · intro j hj
    simp [display_napari, List.getElem?_set_ne (fun h => hj h.symm)]

/-- Witness for C7: a three-slice buffer, updating slice 1 only. -/
theorem display_napari_updates_one_slice_witness :
    (1 : ℕ) < ([[0], [0], [0]] : List (List ℚ)).length ∧
    (display_napari [[0], [0], [0]] ⟨0, 1, [7]⟩).length = ([[0], [0], [0]] : List (List ℚ)).length ∧
    (display_napari [[0], [0], [0]] ⟨0, 1, [7]⟩)[(1 : ℕ)]? = some [7] ∧
    ∀ j, j ≠ (1 : ℕ) →
      (display_napari [[0], [0], [0]] ⟨0, 1, [7]⟩)[j]? = ([[0], [0], [0]] : List (List ℚ))[j]? := by
  have h := display_napari_updates_one_slice [[0], [0], [0]] ⟨0, 1, [7]⟩ (by norm_num)
  exact ⟨by norm_num, h.1, h.2.1, h.2.2⟩

/-- The inner loop of `yield_img` while `acq_running` is true:
    `while img_queue.qsize() > 1: yield img_queue.get(block=False)` —
    elements are removed (and forwarded) only while the queue holds more
    than one.  First component: the elements yielded, in order; second
    component: what is left in the queue. -/
def yield_while_running : List QElem → List QElem × List QElem
  | [] => ([], [])
  | [a] => ([], [a])
  | a :: b :: rest =>
      (a :: (yield_while_running (b :: rest)).1, (yield_while_running (b :: rest)).2)

/-- The final loop of `yield_img` once `acq_running` is false:
    `while img_queue.qsize() > 0: yield img_queue.get(block=False)` — every
    remaining element is forwarded, in order, until the queue is empty. -/
def yield_after_stop : List QElem → List QElem
  | [] => []
  | a :: rest => a :: yield_after_stop rest

/-- Structural specification of the running-phase drain. -/
theorem yield_while_running_spec :
    ∀ q : List QElem,
      (yield_while_running q).1 ++ (yield_while_running q).2 = q ∧
      (yield_while_running q).2.length ≤ 1 ∧
      (q ≠ [] → (yield_while_running q).2 ≠ [])
  | [] => by simp [yield_while_running]
  | [a] => by simp [yield_while_running]
  | a :: b :: rest => by
      obtain ⟨h1, h2, h3⟩ := yield_while_running_spec (b :: rest)
      refine ⟨?_, h2, fun _ => h3 (by simp)⟩
      simp [yield_while_running, h1]

/-- The stop-phase drain forwards every element in order. -/
theorem yield_after_stop_spec : ∀ q : List QElem, yield_after_stop q = q
  | [] => rfl
  | a :: rest => by rw [yield_after_stop, yield_after_stop_spec rest]

/-- C6: while `acq_running` is true, `yield_img` removes an element only
    when the queue holds more than one, so whenever the queue is nonempty at
    least one element remains after the drain (and nothing is lost or
    reordered: yielded ++ remaining is the original queue, with at most one
    element remaining); once the flag is false, it drains every remaining
    element in order to the UI callback until the queue is empty. -/
theorem yield_img_queue_behavior (q : List QElem) :
    (yield_while_running q).1 ++ (yield_while_running q).2 = q ∧
    (yield_while_running q).2.length ≤ 1 ∧
    (q ≠ [] → (yield_while_running q).2 ≠ []) ∧
    yield_after_stop q = q := by
  obtain ⟨h1, h2, h3⟩ := yield_while_running_spec q
  exact ⟨h1, h2, h3, yield_after_stop_spec q⟩

/-- Witness for C6 on a concrete three-element queue: two elements are
    forwarded while running, one stays behind; the stop-phase drain forwards
    everything. -/
theorem yield_img_queue_behavior_witness :
    (yield_while_running [⟨0, 0, [1]⟩, ⟨0, 1, [2]⟩, ⟨0, 2, [3]⟩]).1 ++
        (yield_while_running [⟨0, 0, [1]⟩, ⟨0, 1, [2]⟩, ⟨0, 2, [3]⟩]).2 =
      [⟨0, 0, [1]⟩, ⟨0, 1, [2]⟩, ⟨0, 2, [3]⟩] ∧
    (yield_while_running [⟨0, 0, [1]⟩, ⟨0, 1, [2]⟩, ⟨0, 2, [3]⟩]).2.length ≤ 1 ∧
    (yield_while_running [⟨0, 0, [1]⟩, ⟨0, 1, [2]⟩, ⟨0, 2, [3]⟩]).2 ≠ [] ∧
    yield_after_stop [⟨0, 0, [1]⟩, ⟨0, 1, [2]⟩, ⟨0, 2, [3]⟩] =
      [⟨0, 0, [1]⟩, ⟨0, 1, [2]⟩, ⟨0, 2, [3]⟩] := by
  have h := yield_img_queue_behavior [⟨0, 0, [1]⟩, ⟨0, 1, [2]⟩, ⟨0, 2, [3]⟩]
  exact ⟨h.1, h.2.1, h.2.2.1 (by simp), h.2.2.2⟩

/-- Program state touched by the Start/Stop buttons: the shared
    `acq_running` flag, the active z-slice counter `z_range[3]`, and how
    many worker threads have been started. -/
structure AppState where
  acq_running : Bool
  z_active : ℕ
  workers_started : ℕ
deriving DecidableEq

/-- `start_acq()`: `if not(acq_running): z_range[3] = 0; acq_running = True;`
    create and start the two workers; `else:` only print
    "acquisition already running!". -/
def start_acq (s : AppState) : AppState :=
  if !s.acq_running then
    { acq_running := true, z_active := 0, workers_started := s.workers_started + 2 }
  else s

/-- C9: pressing Start while `acq_running` is true is a no-op on the program
    state — no workers start, the flag keeps its value, the z counter is not
    reset — and hence pressing Start twice is the same as pressing it
    once. -/
theorem start_acq_idempotent (s : AppState) :
    (s.acq_running = true → start_acq s = s) ∧
    start_acq (start_acq s) = start_acq s := by
  constructor
  · intro h
    simp [start_acq, h]
  · by_cases h : s.acq_running = true
    · simp [start_acq, h]
    · simp [start_acq, h]

/-- Witness for C9 on a running state with a nonzero z counter. -/
theorem start_acq_idempotent_witness :
    AppState.acq_running ⟨true, 5, 2⟩ = true ∧ start_acq ⟨true, 5, 2⟩ = ⟨true, 5, 2⟩ :=
  ⟨rfl, (start_acq_idempotent ⟨true, 5, 2⟩).1 rfl⟩

end PSFViewer

